import Mathlib

/-!
Shallow embedding of the request-dispatch core of the eve-rs middleware
framework (`src/src/app.rs`): per-method route registration, path-pattern
matching with named captures, sub-application mounting with prefix rewriting,
and the continuation-passing chain executor, together with theorems settling
the specification claims about them.
-/

namespace Eve

variable {E State SubAppState : Type}

/-- The nine HTTP methods handled by the router (the `HttpMethod` enumeration,
spec section 6). -/
inductive HttpMethod where
  | Get
  | Post
  | Put
  | Delete
  | Head
  | Options
  | Connect
  | Patch
  | Trace
deriving DecidableEq

/-- Modelled from the spec: the stable string form of each method, used in the
not-found message (spec section 6 lists the nine values GET, POST, PUT, DELETE,
HEAD, OPTIONS, CONNECT, PATCH, TRACE; the Display implementation of
`HttpMethod` is not under src/). -/
def HttpMethod.toString : HttpMethod → String
  | .Get => "GET"
  | .Post => "POST"
  | .Put => "PUT"
  | .Delete => "DELETE"
  | .Head => "HEAD"
  | .Options => "OPTIONS"
  | .Connect => "CONNECT"
  | .Patch => "PATCH"
  | .Trace => "TRACE"

/-- Whether the first character of a string is `c` (kernel-reducible embedding
of the character-level `starts_with` used by the source). -/
def str_head_is (c : Char) (s : String) : Bool :=
  match s.data with
  | [] => false
  | d :: _ => d = c

/-- Whether the last character of a string is `c` (kernel-reducible embedding
of the character-level `ends_with` test behind `strip_suffix`). -/
def str_last_is (c : Char) (s : String) : Bool :=
  match s.data.getLast? with
  | some d => d = c
  | none => false

/-- The string without its last character (the `strip_suffix` result when the
suffix is one character long). -/
def str_drop_last (s : String) : String :=
  String.mk s.data.dropLast

/-- The string without its first character (used to read the capture name
after the `:` sigil). -/
def str_drop_head (s : String) : String :=
  String.mk (s.data.drop 1)

/-- Splitting a character list at every `/`, keeping empty components. -/
def split_chars_on_slash : List Char → List (List Char)
  | [] => [[]]
  | c :: cs =>
    let rest := split_chars_on_slash cs
    if c = '/' then
      [] :: rest
    else
      match rest with
      | [] => [[c]]
      | seg :: segs => (c :: seg) :: segs

/-- Splitting a path string into its `/`-separated components, keeping empty
components (so "/a/b" yields "", "a", "b"). -/
def split_on_slash (s : String) : List String :=
  (split_chars_on_slash s.data).map String.mk

/-- Modelled from the spec: one segment of a compiled path pattern — either a
literal segment or a named capture introduced by the `:` sigil (spec section 3;
the PathMatcher component is not under src/). -/
inductive Segment where
  | literal (s : String)
  | capture (name : String)
deriving DecidableEq

/-- Modelled from the spec: compiling one segment of a path specification — a
segment starting with the `:` sigil denotes a named capture (spec section 3). -/
def compileSegment (s : String) : Segment :=
  if str_head_is ':' s then .capture (str_drop_head s) else .literal s

/-- Modelled from the spec: compiling a path specification into a pattern, one
segment per `/`-separated component (spec sections 3 and 4.1). -/
def compile (spec : String) : List Segment :=
  (split_on_slash spec).map compileSegment

/-- Modelled from the spec: matching a compiled pattern against the
`/`-separated segments of a concrete path; fails unless the shapes agree, and
yields the mapping from capture name to captured segment (spec section 4.1). -/
def matchSegments : List Segment → List String → Option (List (String × String))
  | [], [] => some []
  | .literal l :: ps, s :: ss =>
      if l = s then matchSegments ps ss else none
  | .capture n :: ps, s :: ss =>
      (matchSegments ps ss).map (fun rest => (n, s) :: rest)
  | _, _ => none

/-- Modelled from the spec: the pure match operation of the PathMatcher —
`none` when the path does not match the pattern's shape, otherwise the capture
mapping, possibly empty (spec section 4.1). -/
def patternCaptures (spec path : String) : Option (List (String × String)) :=
  matchSegments (compile spec) (split_on_slash path)

/-- The request data reachable from a context; routing only touches its
parameter mapping (`context.get_request_mut().params`, src/src/app.rs line 48;
the `Request` type itself is not under src/ and is modelled from spec
section 6). -/
structure Request where
  params : List (String × String)
deriving DecidableEq

/-- The per-request context as consumed by the dispatch core: current method,
current path, mutable request data, and the response being built (the `Context`
trait is not under src/; modelled from the capability set of spec section 6:
getMethod, getPath, getRequestMut, status, body). -/
structure Context where
  method : HttpMethod
  path : String
  request : Request
  response_status : Nat
  response_body : String
deriving DecidableEq

/-- The `status(code)` response-building operation of the context capability
set (spec section 6). -/
def Context.status (ctx : Context) (code : Nat) : Context :=
  { ctx with response_status := code }

/-- The `body(text)` response-building operation of the context capability set
(spec section 6). -/
def Context.body (ctx : Context) (text : String) : Context :=
  { ctx with response_body := text }

/-- Modelled from the spec: the polymorphic Middleware capability
`run(context, next)` (spec sections 3 and 6), with the async layer erased — a
handler is a function of the context and the continuation, returning either a
resulting context or a failure of type `E`. -/
def HandlerFn (E : Type) : Type :=
  Context → (Context → Except E Context) → Except E Context

/-- Modelled from the spec: a RouteEntry (spec section 3) — the
`MiddlewareHandler` struct is not under src/, only its fields `mounted_url`,
`handler`, `is_endpoint` and its compiled pattern are used there. The compiled
pattern `path_match` is recovered as `compile mounted_url`. -/
structure MiddlewareHandler (E : Type) where
  mounted_url : String
  handler : HandlerFn E
  is_endpoint : Bool

/-- Modelled from the spec: `MiddlewareHandler::new(path, handler, is_endpoint)`
stores the path specification and compiles its pattern. -/
def MiddlewareHandler.new (path : String) (handler : HandlerFn E)
    (is_endpoint : Bool) : MiddlewareHandler E :=
  { mounted_url := path, handler := handler, is_endpoint := is_endpoint }

/-- Modelled from the spec: shape-only applicability of an entry to a path
(spec section 4.1 — selection is by shape match only, captures are recomputed
later). -/
def MiddlewareHandler.is_match (m : MiddlewareHandler E) (path : String) : Bool :=
  (patternCaptures m.mounted_url path).isSome

/-- The url-parameter map built at each chain step (src/src/app.rs lines
35-47): empty when the entry's pattern does not match the current path,
otherwise the named captures of the pattern against the path. -/
def build_url_params (m : MiddlewareHandler E) (path : String) :
    List (String × String) :=
  (patternCaptures m.mounted_url path).getD []

/-- The chain executor (`chained_run`, src/src/app.rs lines 23-64): at index
`i` within bounds, recompute the url parameters of entry `i` against the
current path, overwrite the request's parameter mapping with them, and run
entry `i`'s handler with a continuation resuming at `i + 1`; past the end,
answer 404 with the literal not-found body and return the context as a
success. -/
def chained_run (context : Context) (nodes : List (MiddlewareHandler E))
    (i : Nat) : Except E Context :=
  match h : nodes[i]? with
  | some m =>
      let url_params := build_url_params m context.path
      let context :=
        { context with request := { context.request with params := url_params } }
      m.handler context (fun c => chained_run c nodes (i + 1))
  | none =>
      let method := context.method.toString
      let path := context.path
      Except.ok ((context.status 404).body ("Cannot " ++ method ++ " route " ++ path))
termination_by nodes.length - i
decreasing_by
  have hlt : i < nodes.length := by
    by_contra hge
    rw [List.getElem?_eq_none (Nat.le_of_not_lt hge)] at h
    exact Option.noConfusion h
  omega

/-- The type of the stored error hook: `fn(Response, Box<dyn Error>) ->
Response` (src/src/app.rs line 21), with the response modelled as a
status-body pair and the boxed error as its message. -/
def ErrorHandlerFn : Type :=
  Nat × String → String → Nat × String

/-- The application (`App`, src/src/app.rs lines 66-86): a context generator,
arbitrary state, an optional error hook, and nine ordered route stacks, one
per HTTP method. -/
structure App (E State : Type) where
  context_generator : Request → State → Context
  state : State
  error_handler : Option ErrorHandlerFn
  get_stack : List (MiddlewareHandler E)
  post_stack : List (MiddlewareHandler E)
  put_stack : List (MiddlewareHandler E)
  delete_stack : List (MiddlewareHandler E)
  head_stack : List (MiddlewareHandler E)
  options_stack : List (MiddlewareHandler E)
  connect_stack : List (MiddlewareHandler E)
  patch_stack : List (MiddlewareHandler E)
  trace_stack : List (MiddlewareHandler E)

/-- `App::create` (src/src/app.rs lines 94-110): all nine stacks empty, no
error hook. -/
def App.create (context_generator : Request → State → Context) (state : State) :
    App E State :=
  { context_generator := context_generator
    state := state
    error_handler := none
    get_stack := []
    post_stack := []
    put_stack := []
    delete_stack := []
    head_stack := []
    options_stack := []
    connect_stack := []
    patch_stack := []
    trace_stack := [] }

/-- `App::get` (src/src/app.rs lines 124-133): push one endpoint entry per
handler onto the get stack, then one per handler onto the trace stack. -/
def App.get (app : App E State) (path : String) (middlewares : List (HandlerFn E)) :
    App E State :=
  let app := middlewares.foldl
    (fun a handler =>
      { a with get_stack := a.get_stack ++ [MiddlewareHandler.new path handler true] })
    app
  middlewares.foldl
    (fun a handler =>
      { a with trace_stack := a.trace_stack ++ [MiddlewareHandler.new path handler true] })
    app

/-- `App::post` (src/src/app.rs lines 135-140). -/
def App.post (app : App E State) (path : String) (middlewares : List (HandlerFn E)) :
    App E State :=
  middlewares.foldl
    (fun a handler =>
      { a with post_stack := a.post_stack ++ [MiddlewareHandler.new path handler true] })
    app

/-- `App::put` (src/src/app.rs lines 142-147). -/
def App.put (app : App E State) (path : String) (middlewares : List (HandlerFn E)) :
    App E State :=
  middlewares.foldl
    (fun a handler =>
      { a with put_stack := a.put_stack ++ [MiddlewareHandler.new path handler true] })
    app

/-- `App::delete` (src/src/app.rs lines 149-154). -/
def App.delete (app : App E State) (path : String) (middlewares : List (HandlerFn E)) :
    App E State :=
  middlewares.foldl
    (fun a handler =>
      { a with delete_stack := a.delete_stack ++ [MiddlewareHandler.new path handler true] })
    app

/-- `App::head` (src/src/app.rs lines 156-161). -/
def App.head (app : App E State) (path : String) (middlewares : List (HandlerFn E)) :
    App E State :=
  middlewares.foldl
    (fun a handler =>
      { a with head_stack := a.head_stack ++ [MiddlewareHandler.new path handler true] })
    app

/-- `App::options` (src/src/app.rs lines 163-168). -/
def App.options (app : App E State) (path : String) (middlewares : List (HandlerFn E)) :
    App E State :=
  middlewares.foldl
    (fun a handler =>
      { a with options_stack := a.options_stack ++ [MiddlewareHandler.new path handler true] })
    app

/-- `App::connect` (src/src/app.rs lines 170-175). -/
def App.connect (app : App E State) (path : String) (middlewares : List (HandlerFn E)) :
    App E State :=
  middlewares.foldl
    (fun a handler =>
      { a with connect_stack := a.connect_stack ++ [MiddlewareHandler.new path handler true] })
    app

/-- `App::patch` (src/src/app.rs lines 177-182). -/
def App.patch (app : App E State) (path : String) (middlewares : List (HandlerFn E)) :
    App E State :=
  middlewares.foldl
    (fun a handler =>
      { a with patch_stack := a.patch_stack ++ [MiddlewareHandler.new path handler true] })
    app

/-- `App::trace` (src/src/app.rs lines 184-189). -/
def App.trace (app : App E State) (path : String) (middlewares : List (HandlerFn E)) :
    App E State :=
  middlewares.foldl
    (fun a handler =>
      { a with trace_stack := a.trace_stack ++ [MiddlewareHandler.new path handler true] })
    app

/-- `App::use_middleware` (src/src/app.rs lines 191-212): for each handler in
order, push one non-endpoint entry onto every one of the nine stacks. -/
def App.use_middleware (app : App E State) (path : String)
    (middlewares : List (HandlerFn E)) : App E State :=
  middlewares.foldl
    (fun a handler =>
      { a with
        get_stack := a.get_stack ++ [MiddlewareHandler.new path handler false]
        post_stack := a.post_stack ++ [MiddlewareHandler.new path handler false]
        put_stack := a.put_stack ++ [MiddlewareHandler.new path handler false]
        delete_stack := a.delete_stack ++ [MiddlewareHandler.new path handler false]
        head_stack := a.head_stack ++ [MiddlewareHandler.new path handler false]
        options_stack := a.options_stack ++ [MiddlewareHandler.new path handler false]
        connect_stack := a.connect_stack ++ [MiddlewareHandler.new path handler false]
        patch_stack := a.patch_stack ++ [MiddlewareHandler.new path handler false]
        trace_stack := a.trace_stack ++ [MiddlewareHandler.new path handler false] })
    app

/-- The base-path normalization block of `App::use_sub_app` (src/src/app.rs
lines 221-239), kept exactly as the source computes it: the second rewrite
tests and uses the ORIGINAL `base_path`, not the suffix-stripped one. -/
def normalize_base_path (base_path : String) : String :=
  if base_path = "/" then
    ""
  else
    let formatted_base_path := base_path
    let formatted_base_path :=
      if str_last_is '/' base_path then str_drop_last base_path else formatted_base_path
    let formatted_base_path :=
      if !(str_head_is '/' base_path) then "/" ++ base_path else formatted_base_path
    formatted_base_path

/-- Rewriting one mounted entry of a sub-application (the closure repeated for
each stack in src/src/app.rs lines 241-321). -/
def remount (base_path : String) (handler : MiddlewareHandler E) :
    MiddlewareHandler E :=
  MiddlewareHandler.new (base_path ++ handler.mounted_url) handler.handler
    handler.is_endpoint

/-- `App::use_sub_app` (src/src/app.rs lines 214-321): normalize the base
path, then extend each of the parent's nine stacks with the child's
corresponding entries, each with its path specification prefixed. -/
def App.use_sub_app (app : App E State) (base_path : String)
    (sub_app : App E SubAppState) : App E State :=
  let base_path := normalize_base_path base_path
  { app with
    get_stack := app.get_stack ++ sub_app.get_stack.map (remount base_path)
    post_stack := app.post_stack ++ sub_app.post_stack.map (remount base_path)
    put_stack := app.put_stack ++ sub_app.put_stack.map (remount base_path)
    delete_stack := app.delete_stack ++ sub_app.delete_stack.map (remount base_path)
    head_stack := app.head_stack ++ sub_app.head_stack.map (remount base_path)
    options_stack := app.options_stack ++ sub_app.options_stack.map (remount base_path)
    connect_stack := app.connect_stack ++ sub_app.connect_stack.map (remount base_path)
    patch_stack := app.patch_stack ++ sub_app.patch_stack.map (remount base_path)
    trace_stack := app.trace_stack ++ sub_app.trace_stack.map (remount base_path) }

/-- The per-method stack selection of `get_middleware_stack` (the `match`
on the method, src/src/app.rs lines 338-348). -/
def App.route_stack_of (app : App E State) (method : HttpMethod) :
    List (MiddlewareHandler E) :=
  match method with
  | .Get => app.get_stack
  | .Post => app.post_stack
  | .Put => app.put_stack
  | .Delete => app.delete_stack
  | .Head => app.head_stack
  | .Options => app.options_stack
  | .Connect => app.connect_stack
  | .Patch => app.patch_stack
  | .Trace => app.trace_stack

/-- `App::get_middleware_stack` (src/src/app.rs lines 332-355): select the
method's stack and push, in order, every entry whose pattern matches the
path. -/
def App.get_middleware_stack (app : App E State) (method : HttpMethod)
    (path : String) : List (MiddlewareHandler E) :=
  (app.route_stack_of method).foldl
    (fun stack handler =>
      if handler.is_match path then stack ++ [handler] else stack)
    []

/-- `App::resolve` (src/src/app.rs lines 323-326): filter the stack for the
context's method and path and run the chain from index 0. -/
def App.resolve (app : App E State) (context : Context) : Except E Context :=
  let stack := app.get_middleware_stack context.method context.path
  chained_run context stack 0

/-! ## Concrete fixtures used by witnesses and counterexample evaluations -/

/-- A concrete context: a GET request for the root path with no parameters. -/
def default_context : Context :=
  { method := .Get
    path := "/"
    request := { params := [] }
    response_status := 200
    response_body := "" }

/-- A handler that succeeds immediately with its context, never invoking the
continuation. -/
def ok_handler : HandlerFn String :=
  fun c _ => Except.ok c

/-- An application with no routes registered. -/
def empty_app : App String Unit :=
  App.create (fun _ _ => default_context) ()

/-- A sub-application exposing the single route GET `/ping`. -/
def ping_app : App String Unit :=
  App.get empty_app "/ping" [ok_handler]

/-- The route entry produced by registering `ok_handler` at `/users/:id`. -/
def users_mh : MiddlewareHandler String :=
  MiddlewareHandler.new "/users/:id" ok_handler true

/-- An application with GET `/users/:id` routed to an observer handler that
forwards the context it receives to `g` and never calls the continuation. -/
def users_app (g : Context → Except String Context) : App String Unit :=
  App.get empty_app "/users/:id" [fun c _ => g c]

/-- A GET request context for `/users/42` carrying a stale pre-existing
parameter. -/
def users_ctx : Context :=
  { method := .Get
    path := "/users/42"
    request := { params := [("stale", "old")] }
    response_status := 200
    response_body := "" }

/-- A GET request context for `/missing`. -/
def miss_ctx : Context :=
  { method := .Get
    path := "/missing"
    request := { params := [] }
    response_status := 200
    response_body := "" }

/-- A handler that fails immediately with the message "boom". -/
def err_handler : HandlerFn String :=
  fun _ _ => Except.error "boom"

/-- An application whose only registration is the failing blanket middleware
at `/`. -/
def err_app : App String Unit :=
  App.use_middleware empty_app "/" [err_handler]

/-- The route entry produced by registering `err_handler` as blanket
middleware at `/`. -/
def err_mh : MiddlewareHandler String :=
  MiddlewareHandler.new "/" err_handler false

/-- The route entry produced by registering the short-circuiting `ok_handler`
at `/`. -/
def sc_mh : MiddlewareHandler String :=
  MiddlewareHandler.new "/" ok_handler true

/-! ## Helper lemmas -/

/-- One step of the chain executor at an in-bounds index: the handler of the
selected entry runs on the context with its parameter mapping overwritten by
the entry's recomputed captures, with the continuation resuming at `i + 1`. -/
theorem chained_run_some (context : Context) (nodes : List (MiddlewareHandler E))
    (i : Nat) (m : MiddlewareHandler E) (h : nodes[i]? = some m) :
    chained_run context nodes i
      = m.handler
          { context with
            request := { context.request with params := build_url_params m context.path } }
          (fun c => chained_run c nodes (i + 1)) := by
  rw [chained_run]
  split
  · rename_i m2 hm2
    rw [h] at hm2
    cases hm2
    rfl
  · rename_i hm2
    rw [h] at hm2
    exact Option.noConfusion hm2

/-- The chain executor past the end of the list produces the 404 not-found
outcome as a success. -/
theorem chained_run_none (context : Context) (nodes : List (MiddlewareHandler E))
    (i : Nat) (h : nodes[i]? = none) :
    chained_run context nodes i
      = Except.ok
          ((context.status 404).body
            ("Cannot " ++ context.method.toString ++ " route " ++ context.path)) := by
  rw [chained_run]
  split
  · rename_i m2 hm2
    rw [h] at hm2
    exact Option.noConfusion hm2
  · rfl

/-- Folding a conditional push over a list from an accumulator is the
accumulator followed by the filtered list. -/
theorem foldl_push_filter {α : Type} (p : α → Bool) (l : List α) (init : List α) :
    l.foldl (fun stack h => if p h then stack ++ [h] else stack) init
      = init ++ l.filter p := by
  induction l generalizing init with
  | nil => simp
  | cons a t ih =>
    cases hpa : p a <;>
      simp [List.foldl_cons, List.filter_cons, hpa, ih, List.append_assoc]

/-- Folding a push onto the get stack appends the mapped entries. -/
theorem foldl_push_get_stack {α : Type} (g : α → MiddlewareHandler E)
    (ms : List α) (app : App E State) :
    ms.foldl (fun a handler => { a with get_stack := a.get_stack ++ [g handler] }) app
      = { app with get_stack := app.get_stack ++ ms.map g } := by
  induction ms generalizing app with
  | nil => simp
  | cons a t ih => simp [List.foldl_cons, ih, List.append_assoc]

/-- Folding a push onto the trace stack appends the mapped entries. -/
theorem foldl_push_trace_stack {α : Type} (g : α → MiddlewareHandler E)
    (ms : List α) (app : App E State) :
    ms.foldl (fun a handler => { a with trace_stack := a.trace_stack ++ [g handler] }) app
      = { app with trace_stack := app.trace_stack ++ ms.map g } := by
  induction ms generalizing app with
  | nil => simp
  | cons a t ih => simp [List.foldl_cons, ih, List.append_assoc]

/-- Characterization of `App.get`: it appends endpoint entries to the get and
trace stacks and touches nothing else. -/
theorem App.get_eq (app : App E State) (path : String) (ms : List (HandlerFn E)) :
    App.get app path ms
      = { app with
          get_stack := app.get_stack ++ ms.map (fun h => MiddlewareHandler.new path h true)
          trace_stack :=
            app.trace_stack ++ ms.map (fun h => MiddlewareHandler.new path h true) } := by
  unfold App.get
  rw [foldl_push_get_stack, foldl_push_trace_stack]

/-- Characterization of `App.use_middleware`: it appends one non-endpoint
entry per handler, in order, to every one of the nine stacks. -/
theorem App.use_middleware_eq (app : App E State) (path : String)
    (ms : List (HandlerFn E)) :
    App.use_middleware app path ms
      = { app with
          get_stack := app.get_stack ++ ms.map (fun h => MiddlewareHandler.new path h false)
          post_stack := app.post_stack ++ ms.map (fun h => MiddlewareHandler.new path h false)
          put_stack := app.put_stack ++ ms.map (fun h => MiddlewareHandler.new path h false)
          delete_stack :=
            app.delete_stack ++ ms.map (fun h => MiddlewareHandler.new path h false)
          head_stack := app.head_stack ++ ms.map (fun h => MiddlewareHandler.new path h false)
          options_stack :=
            app.options_stack ++ ms.map (fun h => MiddlewareHandler.new path h false)
          connect_stack :=
            app.connect_stack ++ ms.map (fun h => MiddlewareHandler.new path h false)
          patch_stack := app.patch_stack ++ ms.map (fun h => MiddlewareHandler.new path h false)
          trace_stack :=
            app.trace_stack ++ ms.map (fun h => MiddlewareHandler.new path h false) } := by
  induction ms generalizing app with
  | nil => simp [App.use_middleware]
  | cons a t ih =>
    have hstep :
        App.use_middleware app path (a :: t)
          = App.use_middleware
              { app with
                get_stack := app.get_stack ++ [MiddlewareHandler.new path a false]
                post_stack := app.post_stack ++ [MiddlewareHandler.new path a false]
                put_stack := app.put_stack ++ [MiddlewareHandler.new path a false]
                delete_stack := app.delete_stack ++ [MiddlewareHandler.new path a false]
                head_stack := app.head_stack ++ [MiddlewareHandler.new path a false]
                options_stack := app.options_stack ++ [MiddlewareHandler.new path a false]
                connect_stack := app.connect_stack ++ [MiddlewareHandler.new path a false]
                patch_stack := app.patch_stack ++ [MiddlewareHandler.new path a false]
                trace_stack := app.trace_stack ++ [MiddlewareHandler.new path a false] }
              path t := rfl
    rw [hstep, ih]
    simp [List.append_assoc]

/-! ## Claims -/

/-- C1: the claim states that `use_sub_app` normalizes the base path by
stripping a trailing slash and then prepending a leading slash when absent, so
that mounting at "api/" also rewrites "/ping" to "/api/ping". The code
evaluated at that input disagrees: the leading-slash branch (src/src/app.rs
line 234) formats the ORIGINAL base path, not the suffix-stripped one, so the
prefix for "api/" is "/api/" and the mounted route is "/api//ping". The other
normalization cases of the claim ("api", "/", "/api/") behave as stated. -/
theorem use_sub_app_unstripped_base_bug :
    normalize_base_path "api/" = "/api/"
    ∧ ((App.use_sub_app empty_app "api/" ping_app).get_stack.map
        MiddlewareHandler.mounted_url) = ["/api//ping"]
    ∧ normalize_base_path "api" = "/api"
    ∧ normalize_base_path "/" = ""
    ∧ normalize_base_path "/api/" = "/api"
    ∧ ((App.use_sub_app empty_app "api" ping_app).get_stack.map
        MiddlewareHandler.mounted_url) = ["/api/ping"]
    ∧ ((App.use_sub_app empty_app "/" ping_app).get_stack.map
        MiddlewareHandler.mounted_url) = ["/ping"]
    ∧ ((App.use_sub_app empty_app "/api/" ping_app).get_stack.map
        MiddlewareHandler.mounted_url) = ["/api/ping"] := by
  refine ⟨by decide, by decide, by decide, by decide, by decide, by decide, by decide, by decide⟩

/-- C2: at every in-bounds step `i` of the chain walk, before the handler of
entry `i` runs, the captures of entry `i`'s pattern against the request path
are recomputed and installed in the context's parameter mapping (so a capture
from entry `i` wins over any prior parameter with the same name), and the
handler receives a continuation that resumes the walk at index `i + 1`.
Concretely, registering GET `/users/:id` and dispatching GET `/users/42`
hands the handler a context whose parameter mapping is exactly
id maps-to 42. -/
theorem chained_run_injects_recomputed_captures :
    (∀ (E : Type) (nodes : List (MiddlewareHandler E)) (i : Nat) (ctx : Context)
        (m : MiddlewareHandler E),
      nodes[i]? = some m →
      chained_run ctx nodes i
        = m.handler
            { ctx with
              request := { ctx.request with params := build_url_params m ctx.path } }
            (fun c => chained_run c nodes (i + 1)))
    ∧ (∀ g : Context → Except String Context,
      App.resolve (users_app g) users_ctx
        = g { users_ctx with request := { params := [("id", "42")] } }) := by
  constructor
  · intro E nodes i ctx m h
    exact chained_run_some ctx nodes i m h
  · intro g
    have hstack :
        App.get_middleware_stack (users_app g) users_ctx.method users_ctx.path
          = [MiddlewareHandler.new "/users/:id" (fun c _ => g c) true] := rfl
    show chained_run users_ctx
        (App.get_middleware_stack (users_app g) users_ctx.method users_ctx.path) 0 = _
    rw [hstack,
      chained_run_some users_ctx [MiddlewareHandler.new "/users/:id" (fun c _ => g c) true]
        0 (MiddlewareHandler.new "/users/:id" (fun c _ => g c) true) rfl]
    rfl

/-- Witness for C2: a concrete in-bounds step (the `/users/:id` entry against
path `/users/42`) and the concrete dispatch of the spec's example. -/
theorem chained_run_injects_recomputed_captures_witness :
    (([users_mh] : List (MiddlewareHandler String))[0]? = some users_mh
      ∧ chained_run users_ctx [users_mh] 0
          = users_mh.handler
              { users_ctx with
                request :=
                  { users_ctx.request with
                    params := build_url_params users_mh users_ctx.path } }
              (fun c => chained_run c [users_mh] (0 + 1)))
    ∧ App.resolve (users_app fun c => Except.ok c) users_ctx
        = Except.ok { users_ctx with request := { params := [("id", "42")] } } :=
  ⟨⟨rfl, chained_run_injects_recomputed_captures.1 String [users_mh] 0 users_ctx users_mh rfl⟩,
    chained_run_injects_recomputed_captures.2 (fun c => Except.ok c)⟩

/-- C9: at every in-bounds step of the chain walk the request's parameter
mapping is replaced wholesale (src/src/app.rs line 48): whatever parameter
list `ps` the incoming context carried — injected by an earlier entry or set
before `resolve` — the handler of entry `i` receives exactly the recomputed
captures of entry `i` against the path, with every previously present key
removed. -/
theorem params_replaced_wholesale :
    ∀ (E : Type) (nodes : List (MiddlewareHandler E)) (i : Nat) (ctx : Context)
      (m : MiddlewareHandler E) (ps : List (String × String)),
      nodes[i]? = some m →
      chained_run { ctx with request := { params := ps } } nodes i
        = m.handler
            { ctx with request := { params := build_url_params m ctx.path } }
            (fun c => chained_run c nodes (i + 1)) := by
  intro E nodes i ctx m ps h
  rw [chained_run_some { ctx with request := { params := ps } } nodes i m h]

/-- Witness for C9: the `/users/:id` entry dispatched at `/users/42` discards
the stale pre-set parameter and installs exactly the recomputed capture. -/
theorem params_replaced_wholesale_witness :
    (([users_mh] : List (MiddlewareHandler String))[0]? = some users_mh
      ∧ chained_run { miss_ctx with request := { params := [("stale", "old")] } }
          [users_mh] 0
          = users_mh.handler
              { miss_ctx with request := { params := build_url_params users_mh miss_ctx.path } }
              (fun c => chained_run c [users_mh] (0 + 1))) :=
  ⟨rfl,
    params_replaced_wholesale String [users_mh] 0 miss_ctx users_mh [("stale", "old")] rfl⟩

/-- C3: whenever zero entries survive the method-and-path filtering (and, more
generally, whenever the chain walk runs past the last matching entry without a
short circuit), `resolve` produces a context with response status 404 and
response body exactly "Cannot METHOD route PATH" for the request's method and
path, returned as a success, not an error. -/
theorem chain_exhaustion_not_found_404 :
    (∀ (E S : Type) (app : App E S) (ctx : Context),
      App.get_middleware_stack app ctx.method ctx.path = [] →
      App.resolve app ctx
        = Except.ok
            { ctx with
              response_status := 404
              response_body :=
                "Cannot " ++ ctx.method.toString ++ " route " ++ ctx.path })
    ∧ (∀ (E : Type) (nodes : List (MiddlewareHandler E)) (i : Nat) (ctx : Context),
      nodes.length ≤ i →
      chained_run ctx nodes i
        = Except.ok
            { ctx with
              response_status := 404
              response_body :=
                "Cannot " ++ ctx.method.toString ++ " route " ++ ctx.path }) := by
  constructor
  · intro E S app ctx hstack
    show chained_run ctx (App.get_middleware_stack app ctx.method ctx.path) 0 = _
    rw [hstack, chained_run_none ctx [] 0 rfl]
    rfl
  · intro E nodes i ctx hlen
    rw [chained_run_none ctx nodes i (List.getElem?_eq_none hlen)]
    rfl

/-- Witness for C3: the empty application dispatching GET `/missing` filters
to the empty stack and answers 404 with the literal body
"Cannot GET route /missing", as a success. -/
theorem chain_exhaustion_not_found_404_witness :
    App.get_middleware_stack empty_app miss_ctx.method miss_ctx.path = []
    ∧ App.resolve empty_app miss_ctx
        = Except.ok
            { miss_ctx with
              response_status := 404
              response_body := "Cannot GET route /missing" } :=
  ⟨rfl,
    (chain_exhaustion_not_found_404.1 String Unit empty_app miss_ctx rfl).trans rfl⟩

/-- C4: `get_middleware_stack` selects the sequence for the method and keeps
exactly the entries whose pattern matches the path, in their original relative
order (it is the ordered filter of the method's stack), and `resolve` walks
exactly that filtered list from index 0. -/
theorem get_middleware_stack_is_ordered_filter :
    (∀ (E S : Type) (app : App E S) (method : HttpMethod) (path : String),
      App.get_middleware_stack app method path
        = (App.route_stack_of app method).filter (fun h => h.is_match path))
    ∧ (∀ (E S : Type) (app : App E S) (ctx : Context),
      App.resolve app ctx
        = chained_run ctx (App.get_middleware_stack app ctx.method ctx.path) 0) := by
  constructor
  · intro E S app method path
    unfold App.get_middleware_stack
    rw [foldl_push_filter]
    rfl
  · intro E S app ctx
    rfl

/-- C5: `get(path, handlers)` appends one endpoint entry per handler, in the
given order, to both the GET sequence and the TRACE sequence, leaving the
other seven sequences unchanged; consequently a route registered via
`get("/x", ...)` matches dispatch for path `/x` under both GET and TRACE. -/
theorem get_registers_get_and_trace :
    (∀ (E S : Type) (app : App E S) (path : String) (ms : List (HandlerFn E)),
      (App.get app path ms).get_stack
          = app.get_stack ++ ms.map (fun h => MiddlewareHandler.new path h true)
        ∧ (App.get app path ms).trace_stack
          = app.trace_stack ++ ms.map (fun h => MiddlewareHandler.new path h true)
        ∧ (App.get app path ms).post_stack = app.post_stack
        ∧ (App.get app path ms).put_stack = app.put_stack
        ∧ (App.get app path ms).delete_stack = app.delete_stack
        ∧ (App.get app path ms).head_stack = app.head_stack
        ∧ (App.get app path ms).options_stack = app.options_stack
        ∧ (App.get app path ms).connect_stack = app.connect_stack
        ∧ (App.get app path ms).patch_stack = app.patch_stack)
    ∧ (∀ h : HandlerFn String,
      App.get_middleware_stack (App.get empty_app "/x" [h]) HttpMethod.Get "/x"
          = [MiddlewareHandler.new "/x" h true]
        ∧ App.get_middleware_stack (App.get empty_app "/x" [h]) HttpMethod.Trace "/x"
          = [MiddlewareHandler.new "/x" h true]) := by
  constructor
  · intro E S app path ms
    rw [App.get_eq]
    exact ⟨rfl, rfl, rfl, rfl, rfl, rfl, rfl, rfl, rfl⟩
  · intro h
    exact ⟨rfl, rfl⟩

/-- C6: `use_middleware(path, handlers)` appends one entry per handler, in the
given order and with the endpoint flag false, to all nine method sequences. -/
theorem use_middleware_appends_all_nine :
    ∀ (E S : Type) (app : App E S) (path : String) (ms : List (HandlerFn E)),
      (App.use_middleware app path ms).get_stack
          = app.get_stack ++ ms.map (fun h => MiddlewareHandler.new path h false)
        ∧ (App.use_middleware app path ms).post_stack
          = app.post_stack ++ ms.map (fun h => MiddlewareHandler.new path h false)
        ∧ (App.use_middleware app path ms).put_stack
          = app.put_stack ++ ms.map (fun h => MiddlewareHandler.new path h false)
        ∧ (App.use_middleware app path ms).delete_stack
          = app.delete_stack ++ ms.map (fun h => MiddlewareHandler.new path h false)
        ∧ (App.use_middleware app path ms).head_stack
          = app.head_stack ++ ms.map (fun h => MiddlewareHandler.new path h false)
        ∧ (App.use_middleware app path ms).options_stack
          = app.options_stack ++ ms.map (fun h => MiddlewareHandler.new path h false)
        ∧ (App.use_middleware app path ms).connect_stack
          = app.connect_stack ++ ms.map (fun h => MiddlewareHandler.new path h false)
        ∧ (App.use_middleware app path ms).patch_stack
          = app.patch_stack ++ ms.map (fun h => MiddlewareHandler.new path h false)
        ∧ (App.use_middleware app path ms).trace_stack
          = app.trace_stack ++ ms.map (fun h => MiddlewareHandler.new path h false) := by
  intro E S app path ms
  rw [App.use_middleware_eq]
  exact ⟨rfl, rfl, rfl, rfl, rfl, rfl, rfl, rfl, rfl⟩

/-- C7: when the handler application at a chain step yields a failure, the
executor returns exactly that failure — the failure value is handed back
unmodified, so no later entry and no 404 fallback contributes to the result;
at step 0 this is precisely what `resolve` hands its caller. -/
theorem handler_failure_propagates :
    (∀ (E : Type) (nodes : List (MiddlewareHandler E)) (i : Nat) (ctx : Context)
        (m : MiddlewareHandler E) (e : E),
      nodes[i]? = some m →
      m.handler
          { ctx with
            request := { ctx.request with params := build_url_params m ctx.path } }
          (fun c => chained_run c nodes (i + 1)) = Except.error e →
      chained_run ctx nodes i = Except.error e)
    ∧ (∀ (E S : Type) (app : App E S) (ctx : Context) (m : MiddlewareHandler E) (e : E),
      (App.get_middleware_stack app ctx.method ctx.path)[0]? = some m →
      m.handler
          { ctx with
            request := { ctx.request with params := build_url_params m ctx.path } }
          (fun c => chained_run c (App.get_middleware_stack app ctx.method ctx.path) (0 + 1))
        = Except.error e →
      App.resolve app ctx = Except.error e) := by
  constructor
  · intro E nodes i ctx m e h he
    rw [chained_run_some ctx nodes i m h, he]
  · intro E S app ctx m e h he
    show chained_run ctx (App.get_middleware_stack app ctx.method ctx.path) 0 = _
    rw [chained_run_some ctx (App.get_middleware_stack app ctx.method ctx.path) 0 m h, he]

/-- Witness for C7: the failing blanket middleware at `/` makes `resolve`
return exactly the failure "boom". -/
theorem handler_failure_propagates_witness :
    (App.get_middleware_stack err_app default_context.method default_context.path)[0]?
        = some err_mh
    ∧ err_mh.handler
        { default_context with
          request :=
            { default_context.request with
              params := build_url_params err_mh default_context.path } }
        (fun c =>
          chained_run c
            (App.get_middleware_stack err_app default_context.method default_context.path)
            (0 + 1))
        = Except.error "boom"
    ∧ App.resolve err_app default_context = Except.error "boom" :=
  ⟨rfl, rfl,
    handler_failure_propagates.2 String Unit err_app default_context err_mh "boom" rfl rfl⟩

/-- C8: when the handler at step `i` produces its result without ever invoking
the continuation (its result is the same for every continuation), the chain's
result is exactly that handler's own result — uniformly so for any list
agreeing at position `i`, so entries beyond `i` never run and the 404
fallback never executes. -/
theorem handler_short_circuit :
    ∀ (E : Type) (nodes nodes2 : List (MiddlewareHandler E)) (i : Nat) (ctx : Context)
      (m : MiddlewareHandler E) (r : Except E Context),
      nodes[i]? = some m →
      nodes2[i]? = some m →
      (∀ k : Context → Except E Context,
        m.handler
          { ctx with
            request := { ctx.request with params := build_url_params m ctx.path } }
          k = r) →
      chained_run ctx nodes i = r ∧ chained_run ctx nodes2 i = r := by
  intro E nodes nodes2 i ctx m r h h2 hk
  constructor
  · rw [chained_run_some ctx nodes i m h]
    exact hk _
  · rw [chained_run_some ctx nodes2 i m h2]
    exact hk _

/-- Witness for C8: the short-circuiting endpoint at `/` yields the same
result whether or not a further (failing) entry follows it, and that result is
the handler's own success, not the 404 fallback. -/
theorem handler_short_circuit_witness :
    chained_run default_context [sc_mh, err_mh] 0 = Except.ok default_context
    ∧ chained_run default_context [sc_mh] 0 = Except.ok default_context :=
  handler_short_circuit String [sc_mh, err_mh] [sc_mh] 0 default_context sc_mh
    (Except.ok default_context) rfl rfl (fun _ => rfl)

/-- C10: `use_sub_app` changes only the parent's nine route sequences — its
state, context generator and error handler are untouched; the child
contributes only its route entries, each remounted with the handler and
endpoint flag carried over unchanged and only the path specification
rewritten. -/
theorem use_sub_app_frame :
    ∀ (E S S2 : Type) (parent : App E S) (base_path : String) (child : App E S2),
      (App.use_sub_app parent base_path child).state = parent.state
      ∧ (App.use_sub_app parent base_path child).context_generator
          = parent.context_generator
      ∧ (App.use_sub_app parent base_path child).error_handler = parent.error_handler
      ∧ (App.use_sub_app parent base_path child).get_stack
          = parent.get_stack
              ++ child.get_stack.map (remount (normalize_base_path base_path))
      ∧ (App.use_sub_app parent base_path child).post_stack
          = parent.post_stack
              ++ child.post_stack.map (remount (normalize_base_path base_path))
      ∧ (App.use_sub_app parent base_path child).put_stack
          = parent.put_stack
              ++ child.put_stack.map (remount (normalize_base_path base_path))
      ∧ (App.use_sub_app parent base_path child).delete_stack
          = parent.delete_stack
              ++ child.delete_stack.map (remount (normalize_base_path base_path))
      ∧ (App.use_sub_app parent base_path child).head_stack
          = parent.head_stack
              ++ child.head_stack.map (remount (normalize_base_path base_path))
      ∧ (App.use_sub_app parent base_path child).options_stack
          = parent.options_stack
              ++ child.options_stack.map (remount (normalize_base_path base_path))
      ∧ (App.use_sub_app parent base_path child).connect_stack
          = parent.connect_stack
              ++ child.connect_stack.map (remount (normalize_base_path base_path))
      ∧ (App.use_sub_app parent base_path child).patch_stack
          = parent.patch_stack
              ++ child.patch_stack.map (remount (normalize_base_path base_path))
      ∧ (App.use_sub_app parent base_path child).trace_stack
          = parent.trace_stack
              ++ child.trace_stack.map (remount (normalize_base_path base_path))
      ∧ (∀ h : MiddlewareHandler E,
          (remount (normalize_base_path base_path) h).handler = h.handler
          ∧ (remount (normalize_base_path base_path) h).is_endpoint = h.is_endpoint
          ∧ (remount (normalize_base_path base_path) h).mounted_url
              = normalize_base_path base_path ++ h.mounted_url) := by
  intro E S S2 parent base_path child
  exact ⟨rfl, rfl, rfl, rfl, rfl, rfl, rfl, rfl, rfl, rfl, rfl, rfl,
    fun h => ⟨rfl, rfl, rfl⟩⟩

end Eve
